import Mathlib

/-!
Verification of the TPU fleet audit engine (`master.py`, `lock_util.py`,
`wrap_master.py`) against its natural-language specification.

The Python sources are shallowly embedded as pure Lean functions:

* external effects (the cloud listing call, the remote SSH probe, the delete
  call, filesystem reads) are passed in explicitly as values describing the
  outcome the external world produced;
* the reservation-lock directory is a list of filenames, and deletion of a
  file is modelled by returning the list of files that remain after the scan;
* Python dicts keyed by strings are modelled as association lists inserted
  in first-wins order (insert only if the key is absent), so `List.lookup`
  agrees with the dict lookup;
* timestamps are modelled with integer seconds (Python uses floats; every
  comparison and subtraction the code performs agrees on integers);
* Python string operations (`split`, `strip`, `startswith`, `in`) are given
  executable models over `List Char` so that concrete instances evaluate
  inside the kernel.
-/

namespace TpuMaster

/-! ## Python string primitives -/

/-- Python's `needle in hay` on the character lists. -/
def infixOfL (n : List Char) : List Char → Bool
  | [] => n.isEmpty
  | c :: rest => n.isPrefixOf (c :: rest) || infixOfL n rest

/-- Python's substring test `needle in hay`. -/
def py_in (needle hay : String) : Bool :=
  infixOfL needle.toList hay.toList

/-- Worker for `pySplit`, structurally recursive on a fuel bounded by the
length of the string being split (the string loses at least one character
per step, so the fuel never runs out). -/
def splitGoF (sep : List Char) : Nat → List Char → List (List Char)
  | _, [] => [[]]
  | 0, s => [s]
  | fuel + 1, c :: rest =>
    if sep.isPrefixOf (c :: rest) ∧ sep ≠ [] then
      [] :: splitGoF sep fuel (rest.drop (sep.length - 1))
    else
      match splitGoF sep fuel rest with
      | [] => [[c]]
      | p :: ps => (c :: p) :: ps

/-- Python's `s.split(sep)` for a non-empty separator: the list of segments
between non-overlapping occurrences of `sep`, scanned left to right, with
empty segments preserved. -/
def pySplit (sep s : String) : List String :=
  (splitGoF sep.toList s.toList.length s.toList).map fun l => String.mk l

/-- Python's `s.split(sep, 1)[1]`: everything after the first occurrence of
`sep` (callers guard that `sep` occurs). -/
def split_first (sep s : String) : String :=
  String.intercalate sep ((pySplit sep s).drop 1)

/-- Python's `s.strip()` (whitespace trimmed from both ends). -/
def pyStrip (s : String) : String :=
  String.mk (((s.toList.dropWhile Char.isWhitespace).reverse.dropWhile
    Char.isWhitespace).reverse)

/-- Python's `s.startswith(pre)`. -/
def pyStartsWith (pre s : String) : Bool :=
  pre.toList.isPrefixOf s.toList

/-- Numeric decode of a digit string: `some n` iff it is non-empty and all
digits (the successful case of Python `int(s)`). -/
def digitsToNat (s : String) : Option Nat :=
  let l := s.toList
  if l ≠ [] ∧ l.all Char.isDigit then
    some (l.foldl (fun a c => a * 10 + (c.toNat - 48)) 0)
  else none

/-! ## `lock_util.py` -/

/-- The format `%Y-%m-%d_%H-%M-%S`: a parsed UTC wall-clock timestamp. -/
structure LockTime where
  year : Nat
  month : Nat
  day : Nat
  hour : Nat
  minute : Nat
  second : Nat
deriving DecidableEq, Repr

/-- Gregorian leap year, as Python's `datetime` uses. -/
def isLeap (y : Nat) : Bool :=
  (y % 4 == 0 && y % 100 != 0) || (y % 400 == 0)

/-- Number of days in month `m` of year `y`. -/
def daysInMonth (y m : Nat) : Nat :=
  if m = 2 then (if isLeap y then 29 else 28)
  else if m = 4 ∨ m = 6 ∨ m = 9 ∨ m = 11 then 30
  else 31

/-- Days in year `y` strictly before month `m`. -/
def daysBeforeMonth (y m : Nat) : Nat :=
  (List.range (m - 1)).foldl (fun a i => a + daysInMonth y (i + 1)) 0

/-- Days elapsed from 0001-01-01 to the given date (proleptic Gregorian),
matching Python `datetime.date.toordinal() - 1`. -/
def toDays (t : LockTime) : Nat :=
  365 * (t.year - 1) + (t.year - 1) / 4 - (t.year - 1) / 100 + (t.year - 1) / 400
    + daysBeforeMonth t.year t.month + (t.day - 1)

/-- Seconds elapsed from 0001-01-01 00:00:00 to the given timestamp. -/
def toSecs (t : LockTime) : Nat :=
  toDays t * 86400 + t.hour * 3600 + t.minute * 60 + t.second

/-- A 1- or 2-digit numeric field in `[lo, hi]`, as `strptime`'s component
regexes accept. -/
def parse2 (lo hi : Nat) (s : String) : Option Nat :=
  if s.length = 1 ∨ s.length = 2 then
    match digitsToNat s with
    | some n => if lo ≤ n ∧ n ≤ hi then some n else none
    | none => none
  else none

/-- Embeds `lock_util.parse_lock_time_str`: `datetime.strptime(s, "%Y-%m-%d_%H-%M-%S")`,
returning `none` where Python raises `ValueError` (wrong shape, non-numeric
field, out-of-range component, day out of range for month). -/
def parse_lock_time_str (s : String) : Option LockTime :=
  match pySplit "_" s with
  | [date, timePart] =>
    match pySplit "-" date, pySplit "-" timePart with
    | [ys, ms, ds], [hs, mins, ss] =>
      match (if ys.length = 4 then digitsToNat ys else none) with
      | none => none
      | some y =>
        match parse2 1 12 ms, parse2 1 31 ds, parse2 0 23 hs,
              parse2 0 59 mins, parse2 0 59 ss with
        | some mo, some d, some h, some mi, some sec =>
          if 1 ≤ y ∧ d ≤ daysInMonth y mo then
            some ⟨y, mo, d, h, mi, sec⟩
          else none
        | _, _, _, _, _ => none
    | _, _ => none
  | _ => none

/-- Embeds `lock_util.lock_time_seconds_between`: `(t2 - t1).total_seconds()`,
`none` where Python raises on an unparsable argument. -/
def lock_time_seconds_between (time_str_earlier time_str_later : String) : Option Int :=
  match parse_lock_time_str time_str_earlier, parse_lock_time_str time_str_later with
  | some t1, some t2 => some ((toSecs t2 : Int) - (toSecs t1 : Int))
  | _, _ => none

/-- Embeds `lock_util._parse_lock_filename`: split on `_`; fewer than 4 parts is
unparsable; else `(user, vm_name, time_str)` with `user = parts[0]`,
`vm_name = "_".join(parts[1:-2])`, `time_str = parts[-2] + "_" + parts[-1]`. -/
def _parse_lock_filename (filename : String) : Option (String × String × String) :=
  let parts := pySplit "_" filename
  if parts.length < 4 then none
  else
    some (parts.getD 0 "",
          String.intercalate "_" ((parts.drop 1).dropLast.dropLast),
          parts.getD (parts.length - 2) "" ++ "_" ++ parts.getD (parts.length - 1) "")

/-! ## `master.py`: reservation registry -/

/-- Constant `master.LOCK_EXPIRE_SECONDS = 30 * 60`. -/
def LOCK_EXPIRE_SECONDS : Int := 30 * 60

/-- The loop body of `master.collect_recent_reservations`, iterating over the
directory listing `files` with the reservations dict accumulated in `acc`
(an association list in first-wins insertion order).  Returns the final
reservations together with the files that remain in the directory after the
scan (unparsable and fresh files are kept; invalid-timestamp and expired
files are removed with `os.remove`). -/
def scanAux (now : String) : List String → List (String × String) →
    List (String × String) × List String
  | [], acc => (acc, [])
  | f :: fs, acc =>
    match _parse_lock_filename f with
    | none =>
      let r := scanAux now fs acc
      (r.1, f :: r.2)
    | some (user, vm_name, time_str) =>
      match lock_time_seconds_between time_str now with
      | none => scanAux now fs acc
      | some seconds_ago =>
        if seconds_ago > LOCK_EXPIRE_SECONDS then scanAux now fs acc
        else
          let acc2 := if (acc.lookup vm_name).isSome then acc
                      else acc ++ [(vm_name, user)]
          let r := scanAux now fs acc2
          (r.1, f :: r.2)

/-- Embeds `master.collect_recent_reservations`: scan all lock files once; input is
the directory listing and the current time string, output is the fresh
reservations `{vm_name: user}` and the surviving directory contents. -/
def collect_recent_reservations (files : List String) (now : String) :
    List (String × String) × List String :=
  scanAux now files []

/-- A lock file is a fresh valid lease for `vm` at time `now`: its filename
parses, names `vm`, and its age is within the TTL. -/
def fresh_valid_for (now vm : String) (f : String) : Bool :=
  match _parse_lock_filename f with
  | none => false
  | some (_, vm_name, time_str) =>
    vm_name == vm &&
      match lock_time_seconds_between time_str now with
      | none => false
      | some s => decide (s ≤ LOCK_EXPIRE_SECONDS)

/-- The owner field of a lock filename (`""` if unparsable). -/
def owner_of (f : String) : String :=
  match _parse_lock_filename f with
  | some (user, _, _) => user
  | none => ""

/-! ## `master.py`: classification policy and inventory collector -/

/-- Constant `master.OTHER_PREFIX` (the sentinel tag for unmatched names). -/
def OTHER_PFX : String := "__OTHER__"

/-- Constant `master.PREFIXES` (the configured priority list of owner keys). -/
def PFXES : List String := ["llq", "keya", "dmy", "gzy", "kangyang"]

/-- Embeds `master.should_skip_tpu`. -/
def should_skip_tpu (name _zone state : String) : Bool :=
  if state ∈ ["PREEMPTED", "TERMINATED", "CREATING", "DELETING", "REPAIRING",
      "STOPPED"] then true
  else if name = "kmh-tpuvm-v4-8-4" then true
  else if py_in "kmh-tpuvm-v3-8" name || py_in "kmh-tpuvm-v4-8-" name then true
  else false

/-- Embeds `master.assign_prefix`: first entry of the priority list that is a
substring of `name`, else the OTHER sentinel. -/
def assign_pfx (name : String) : List String → String
  | [] => OTHER_PFX
  | p :: rest => if py_in p name then p else assign_pfx name rest

/-- A task dict of `master.py`: active check tasks carry `name`/`zone` (and
later a `prefix`), delete tasks additionally carry `state`. -/
structure Task where
  name : String
  zone : String
  state : Option String
  pfx : Option String
deriving DecidableEq, Repr

/-- One line of the `gcloud ... list` output, parsed as the loop body of
`master.list_tpus_in_zone` does: blank lines and lines with fewer than two
tab-separated fields are dropped, the first two fields are stripped. -/
def parse_tpu_line (line : String) : Option (String × String) :=
  if pyStrip line = "" then none
  else
    let parts := pySplit "\t" line
    if parts.length < 2 then none
    else some (pyStrip (parts.getD 0 ""), pyStrip (parts.getD 1 ""))

/-- The line loop of `master.list_tpus_in_zone` over the already-split output
lines: returns `(active_results, preempted_results)` in output order. -/
def zone_go (zone : String) : List String → List Task × List Task
  | [] => ([], [])
  | line :: rest =>
    let r := zone_go zone rest
    match parse_tpu_line line with
    | none => r
    | some (name, state) =>
      if state = "PREEMPTED" then (r.1, ⟨name, zone, some state, none⟩ :: r.2)
      else if should_skip_tpu name zone state then r
      else (⟨name, zone, none, none⟩ :: r.1, r.2)

/-- Embeds `master.list_tpus_in_zone`: the external call either fails (any
exception: empty lists for the zone) or yields the raw text output, which is
split into lines and folded by `zone_go`. -/
def list_tpus_in_zone (zone : String) (callResult : Except String String) :
    List Task × List Task :=
  match callResult with
  | .error _ => ([], [])
  | .ok out => zone_go zone (pySplit "\n" out)

/-! ## `master.py`: remote occupancy prober -/

/-- Outcome of the external `gcloud ... ssh` invocation inside
`master.check_single_tpu`: it completed with a return code, output lines
(`res.stdout.splitlines()`) and stderr text; or it exceeded the 40s deadline
(`subprocess.TimeoutExpired`); or it raised some other exception. -/
inductive ProbeOutcome where
  | completed (returncode : Int) (stdout : List String) (stderr : String)
  | timedOut
  | excepted (e : String)
deriving DecidableEq, Repr

/-- The result 5-tuple `(prefix, name, zone, status, message)` of
`master.check_single_tpu`. -/
structure CheckResult where
  pfx : String
  name : String
  zone : String
  status : String
  msg : String
deriving DecidableEq, Repr

/-- Python `set.add` on a deduplicated list model of a set. -/
def set_add (us : List String) (u : String) : List String :=
  if us.contains u then us else us ++ [u]

/-- The payload of a `CHECK_RES:` line: `line.split("CHECK_RES:")[1].strip()`. -/
def payload_of (line : String) : String :=
  pyStrip ((pySplit "CHECK_RES:" line).getD 1 "")

/-- The inner `for part in payload.split("|")` loop of
`master.check_single_tpu`: add every `USER:`-tagged field to the user set. -/
def busy_users_of_payload (users : List String) (payload : String) : List String :=
  (pySplit "|" payload).foldl
    (fun us part =>
      if pyStartsWith "USER:" part then set_add us (split_first ":" part) else us)
    users

/-- The `for line in res.stdout.splitlines()` loop of
`master.check_single_tpu`, carrying `(saw_check, saw_busy, users)`. -/
def scan_lines : List String → Bool → Bool → List String → Bool × Bool × List String
  | [], saw_check, saw_busy, users => (saw_check, saw_busy, users)
  | line :: rest, saw_check, saw_busy, users =>
    if py_in "CHECK_RES:" line then
      let payload := payload_of line
      if payload == "IDLE" then scan_lines rest true saw_busy users
      else if pyStartsWith "BUSY" payload then
        scan_lines rest true true (busy_users_of_payload users payload)
      else scan_lines rest true saw_busy users
    else scan_lines rest saw_check saw_busy users

/-- Lexicographic code-point comparison of character lists (Python's string
order). -/
def charListLe : List Char → List Char → Bool
  | [], _ => true
  | _ :: _, [] => false
  | c :: cs, d :: ds => if c = d then charListLe cs ds else decide (c.toNat < d.toNat)

/-- Python's `a <= b` on strings. -/
def pyStrLe (a b : String) : Bool :=
  charListLe a.toList b.toList

/-- Insertion sort on strings, modelling Python `sorted` on the user set. -/
def insertSorted (u : String) : List String → List String
  | [] => [u]
  | v :: vs => if pyStrLe u v then u :: v :: vs else v :: insertSorted u vs

/-- Python `sorted` on a list of strings. -/
def sortStrings (l : List String) : List String :=
  l.foldr insertSorted []

/-- A single-quote character, for Python `repr` of strings. -/
def sq : String := String.singleton (Char.ofNat 39)

/-- Python `str(sorted(users))`, e.g. `[]` or a quoted comma-separated list. -/
def pyStrList (l : List String) : String :=
  "[" ++ String.intercalate ", " (l.map fun u => sq ++ u ++ sq) ++ "]"

/-- Embeds `master.check_single_tpu`: classify one probed instance from the outcome
of its remote diagnostic command. -/
def check_single_tpu (t : Task) (res : ProbeOutcome) : CheckResult :=
  let name := t.name
  let zone := t.zone
  let pfx := t.pfx.getD ""
  match res with
  | .timedOut =>
    ⟨pfx, name, zone, "TIMEOUT", "[" ++ pfx ++ "] [TIMEOUT] " ++ name⟩
  | .excepted e =>
    ⟨pfx, name, zone, "ERROR", "[" ++ pfx ++ "] [ERROR] " ++ name ++ ": " ++ e⟩
  | .completed returncode stdout stderr =>
    if returncode ≠ 0 then
      ⟨pfx, name, zone, "SSH_FAIL",
        "[" ++ pfx ++ "] [SSH_FAIL] " ++ name ++ ": " ++ pyStrip stderr⟩
    else
      let r := scan_lines stdout false false []
      if r.1 = false then
        ⟨pfx, name, zone, "ERROR",
          "[" ++ pfx ++ "] [ERROR] " ++ name ++ ": no CHECK_RES in output"⟩
      else if r.2.1 = false then
        ⟨pfx, name, zone, "IDLE",
          "[" ++ pfx ++ "] [IDLE] " ++ name ++ " (" ++ zone ++ ")"⟩
      else
        ⟨pfx, name, zone, "BUSY",
          "[" ++ pfx ++ "] [BUSY] " ++ name ++ " (" ++ zone ++ ") users=" ++
            pyStrList (sortStrings r.2.2)⟩

/-- A line that signals BUSY: it contains the result marker and its payload
starts with `BUSY`. -/
def busy_line (l : String) : Bool :=
  py_in "CHECK_RES:" l && pyStartsWith "BUSY" (payload_of l)

/-- User `u` is reported by the probe output: some BUSY line has a
`USER:`-tagged field whose value is `u`. -/
def user_reported (out : List String) (u : String) : Prop :=
  ∃ l ∈ out, busy_line l = true ∧ ∃ part ∈ pySplit "|" (payload_of l),
    pyStartsWith "USER:" part = true ∧ split_first ":" part = u

/-! ## `master.py`: delete handler and task dispatcher -/

/-- Outcome of the external `gcloud ... delete` call inside
`master.delete_preempted_tpu`. -/
inductive DeleteOutcome where
  | ok
  | timeout
  | err (e : String)
deriving DecidableEq, Repr

/-- Embeds `master.delete_preempted_tpu`: returns `(status, name, zone)`. -/
def delete_preempted_tpu (t : Task) (out : DeleteOutcome) :
    String × String × String :=
  match out with
  | .ok => ("DELETE_SUCCESS", t.name, t.zone)
  | .timeout => ("DELETE_TIMEOUT", t.name, t.zone)
  | .err _ => ("DELETE_FAIL", t.name, t.zone)

/-- A worker result: the heterogeneous Python result tuple, tagged by the
handler that produced it. -/
inductive TaskResult where
  | del (r : String × String × String)
  | chk (r : CheckResult)
deriving DecidableEq, Repr

/-- What the external world answers for one task: the delete call's outcome
if a delete is issued, the probe's outcome if a probe is issued. -/
structure ExtWorld where
  delOut : DeleteOutcome
  probeOut : ProbeOutcome
deriving Repr

/-- Embeds `master.process_task`: a task with a `state` key is routed to the delete
handler, any other task to the check handler. -/
def process_task (t : Task) (w : ExtWorld) : TaskResult :=
  if t.state.isSome then .del (delete_preempted_tpu t w.delOut)
  else .chk (check_single_tpu t w.probeOut)

/-! ## `master.py`: orchestrator pieces (`run_audit_all`) -/

/-- The fan-in of phase 1 of `master.run_audit_all`: concatenate the per-zone
active lists and the per-zone preempted lists. -/
def gather_zone_results (zr : List (List Task × List Task)) :
    List Task × List Task :=
  ((zr.map Prod.fst).flatten, (zr.map Prod.snd).flatten)

/-- Phase 1 of `master.run_audit_all` with the external call outcomes given
per zone: list every zone, fan in, and assign a prefix to each active task. -/
def audit_tasks (zoneCalls : List (String × Except String String))
    (pfxes : List String) : List Task × List Task :=
  let g := gather_zone_results
    (zoneCalls.map fun zc => list_tpus_in_zone zc.1 zc.2)
  (g.1.map fun t => { t with pfx := some (assign_pfx t.name pfxes) }, g.2)

/-- The loop body of phase 2.5 of `master.run_audit_all`: if the result is
IDLE and its name is reserved (`name in reservations`), append the holder to
the message; otherwise pass the result through unchanged. -/
def mark_one (reservations : List (String × String)) (r : CheckResult) :
    CheckResult :=
  match reservations.lookup r.name with
  | some user =>
    if r.status = "IDLE" then
      { r with msg := r.msg ++ " reserve (if idle): " ++ user }
    else r
  | none => r

/-- Phase 2.5 of `master.run_audit_all`: annotate IDLE results whose name
holds a current reservation.  Mirrors the `if reservations:` guard and the
marking loop. -/
def mark_reservations (reservations : List (String × String))
    (check_results : List CheckResult) : List CheckResult :=
  if reservations.isEmpty then check_results
  else check_results.map (mark_one reservations)

/-! ## `wrap_master.py`: execution deduplicator -/

/-- Constant `wrap_master.CACHE_DURATION = 300` (5 minutes). -/
def CACHE_DURATION : Nat := 300

/-- Observable behaviour of `wrap_master.run_with_cache_true`: either exit
with status 1 because no (valid) cache entry exists, or write the cached
payload to stdout and report its age on stderr. -/
inductive CacheTrueResult where
  | exitNoCache
  | served (payload : String) (age : Int)
deriving DecidableEq, Repr

/-- Embeds `wrap_master.run_with_cache_true` over the parsed cache entry (`none` is
a missing/invalid cache file, as `_read_cache` reports): returns the
behaviour together with the cache file state after the call (this path never
writes the cache). -/
def run_with_cache_true (cache : Option (Nat × String)) (now : Nat) :
    CacheTrueResult × Option (Nat × String) :=
  match cache with
  | none => (.exitNoCache, none)
  | some (t, out) => (.served out ((now : Int) - (t : Int)), some (t, out))

/-- Embeds `wrap_master.run_with_cache_false` after the exclusive lock is held: run
`master.py` once (its stdout, stderr and return code are inputs), build the
combined output, overwrite the cache with `{now, output}`, and exit with the
pass's return code.  Returns `(printed output, new cache entry, exit code)`. -/
def run_with_cache_false (now : Nat) (masterStdout masterStderr : String)
    (returncode : Int) : String × Option (Nat × String) × Int :=
  let output := masterStdout ++ (if masterStderr ≠ "" then masterStderr else "")
  (output, some (now, output), if returncode ≠ 0 then returncode else 0)

/-! ## Helper lemmas -/

lemma find?_eq_head?_filter (p : String → Bool) (l : List String) :
    l.find? p = (l.filter p).head? := by
  induction l with
  | nil => rfl
  | cons a l ih =>
    cases h : p a
    · rw [List.find?_cons_of_neg _ (by simp [h]),
        List.filter_cons_of_neg (by simp [h]), ih]
    · rw [List.find?_cons_of_pos _ h, List.filter_cons_of_pos h]
      rfl

lemma assign_pfx_eq_find? (name : String) (l : List String) :
    assign_pfx name l = ((l.find? fun p => py_in p name).getD OTHER_PFX) := by
  induction l with
  | nil => rfl
  | cons p rest ih =>
    cases h : py_in p name <;> simp [assign_pfx, List.find?_cons, h, ih]

lemma mark_reservations_eq_map (res : List (String × String))
    (rs : List CheckResult) : mark_reservations res rs = rs.map (mark_one res) := by
  cases res with
  | nil =>
    have h : ∀ r ∈ rs, mark_one [] r = r := by
      intro r _; simp [mark_one, List.lookup]
    simp [mark_reservations, List.map_congr_left h]
  | cons p res => rfl

lemma lookup_append (l1 l2 : List (String × String)) (a : String) :
    (l1 ++ l2).lookup a = (l1.lookup a).or (l2.lookup a) := by
  induction l1 with
  | nil => simp
  | cons p l ih =>
    cases p with
    | mk k v =>
      by_cases h : a = k
      · simp [List.lookup, h]
      · simp [List.lookup, h, ih, beq_false_of_ne h]

/-- An unparsable filename survives the scan (the loop `continue`s without
`os.remove`). -/
lemma scanAux_keeps_unparsable (now f : String)
    (hf : _parse_lock_filename f = none) :
    ∀ (fs : List String) (acc : List (String × String)),
      f ∈ fs → f ∈ (scanAux now fs acc).2 := by
  intro fs
  induction fs with
  | nil => intro acc h; cases h
  | cons g gs ih =>
    intro acc hmem
    rcases List.mem_cons.mp hmem with rfl | hmem
    · simp [scanAux, hf]
    · cases hg : _parse_lock_filename g with
      | none => simpa [scanAux, hg] using Or.inr (ih acc hmem)
      | some parsed =>
        obtain ⟨user, vm_name, time_str⟩ := parsed
        cases hb : lock_time_seconds_between time_str now with
        | none => simpa [scanAux, hg, hb] using ih acc hmem
        | some s =>
          by_cases hs : s > LOCK_EXPIRE_SECONDS
          · simpa [scanAux, hg, hb, hs] using ih acc hmem
          · simp only [scanAux, hg, hb, if_neg hs]
            exact List.mem_cons_of_mem g (ih _ hmem)

/-- A file whose name parses but whose timestamp is invalid or expired is
removed by the scan. -/
lemma scanAux_removes (now f : String) (u vm ts : String)
    (hf : _parse_lock_filename f = some (u, vm, ts))
    (hbad : lock_time_seconds_between ts now = none ∨
      ∃ s, lock_time_seconds_between ts now = some s ∧ s > LOCK_EXPIRE_SECONDS) :
    ∀ (fs : List String) (acc : List (String × String)),
      f ∉ (scanAux now fs acc).2 := by
  intro fs
  induction fs with
  | nil => intro acc h; cases h
  | cons g gs ih =>
    intro acc
    cases hg : _parse_lock_filename g with
    | none =>
      simp only [scanAux, hg, List.mem_cons, not_or]
      refine ⟨fun hfg => ?_, ih acc⟩
      rw [hfg] at hf
      rw [hf] at hg
      cases hg
    | some parsed =>
      obtain ⟨user, vm_name, time_str⟩ := parsed
      cases hb : lock_time_seconds_between time_str now with
      | none => simpa [scanAux, hg, hb] using ih acc
      | some s =>
        by_cases hs : s > LOCK_EXPIRE_SECONDS
        · simpa [scanAux, hg, hb, hs] using ih acc
        · simp only [scanAux, hg, hb, if_neg hs, List.mem_cons, not_or]
          refine ⟨fun hfg => ?_, ih _⟩
          subst hfg
          rw [hf] at hg
          cases hg
          rw [hb] at hbad
          rcases hbad with h | ⟨s', hs', hgt⟩
          · cases h
          · cases hs'
            exact hs hgt

/-- The reservations returned by the scan ignore unparsable filenames
entirely. -/
lemma scanAux_filter_parsable (now : String) :
    ∀ (fs : List String) (acc : List (String × String)),
      (scanAux now fs acc).1 =
        (scanAux now (fs.filter fun g => (_parse_lock_filename g).isSome) acc).1 := by
  intro fs
  induction fs with
  | nil => intro acc; rfl
  | cons g gs ih =>
    intro acc
    cases hg : _parse_lock_filename g with
    | none => simp [scanAux, hg, List.filter_cons, ih]
    | some parsed =>
      obtain ⟨user, vm_name, time_str⟩ := parsed
      have hcons : (g :: gs).filter (fun g => (_parse_lock_filename g).isSome) =
          g :: gs.filter (fun g => (_parse_lock_filename g).isSome) := by
        simp [List.filter_cons, hg]
      rw [hcons]
      cases hb : lock_time_seconds_between time_str now with
      | none => simp [scanAux, hg, hb, ih]
      | some s =>
        by_cases hs : s > LOCK_EXPIRE_SECONDS
        · simp [scanAux, hg, hb, hs, ih]
        · simp [scanAux, hg, hb, hs, ih]

/-- The dict produced by the scan maps `vm` to the owner of the first fresh
valid lease for `vm` in directory order, after any binding already in the
accumulator. -/
lemma scanAux_lookup (now vm : String) :
    ∀ (fs : List String) (acc : List (String × String)),
      ((scanAux now fs acc).1.lookup vm) =
        (acc.lookup vm).or ((fs.find? (fresh_valid_for now vm)).map owner_of) := by
  intro fs
  induction fs with
  | nil => intro acc; simp [scanAux]
  | cons g gs ih =>
    intro acc
    cases hg : _parse_lock_filename g with
    | none =>
      have hfv : fresh_valid_for now vm g = false := by
        simp [fresh_valid_for, hg]
      have hfind : (g :: gs).find? (fresh_valid_for now vm) =
          gs.find? (fresh_valid_for now vm) :=
        List.find?_cons_of_neg _ (by simp [hfv])
      simp [scanAux, hg, hfind, ih]
    | some parsed =>
      obtain ⟨user, vm_name, time_str⟩ := parsed
      cases hb : lock_time_seconds_between time_str now with
      | none =>
        have hfv : fresh_valid_for now vm g = false := by
          simp [fresh_valid_for, hg, hb]
        have hfind : (g :: gs).find? (fresh_valid_for now vm) =
            gs.find? (fresh_valid_for now vm) :=
          List.find?_cons_of_neg _ (by simp [hfv])
        simp [scanAux, hg, hb, hfind, ih]
      | some s =>
        by_cases hs : s > LOCK_EXPIRE_SECONDS
        · have hfv : fresh_valid_for now vm g = false := by
            simp [fresh_valid_for, hg, hb, not_le.mpr hs]
          have hfind : (g :: gs).find? (fresh_valid_for now vm) =
              gs.find? (fresh_valid_for now vm) :=
            List.find?_cons_of_neg _ (by simp [hfv])
          simp [scanAux, hg, hb, hs, hfind, ih]
        · by_cases hvm : vm_name = vm
          · subst hvm
            have hfv : fresh_valid_for now vm_name g = true := by
              simp [fresh_valid_for, hg, hb, not_lt.mp hs]
            have how : owner_of g = user := by simp [owner_of, hg]
            have hfind : (g :: gs).find? (fresh_valid_for now vm_name) = some g :=
              List.find?_cons_of_pos _ hfv
            rw [hfind]
            simp only [scanAux, hg, hb, if_neg hs]
            cases hacc : acc.lookup vm_name with
            | some w => simp [hacc, ih, how, Option.or]
            | none =>
              simp only [hacc, Option.isSome_none, Bool.false_eq_true,
                if_false, ih, lookup_append]
              simp [hacc, List.lookup, how, Option.or]
          · have hfv : fresh_valid_for now vm g = false := by
              simp [fresh_valid_for, hg, hb, hvm]
            have hfind : (g :: gs).find? (fresh_valid_for now vm) =
                gs.find? (fresh_valid_for now vm) :=
              List.find?_cons_of_neg _ (by simp [hfv])
            rw [hfind]
            simp only [scanAux, hg, hb, if_neg hs]
            by_cases hacc : (acc.lookup vm_name).isSome
            · simp [hacc, ih]
            · simp only [hacc, if_false, Bool.false_eq_true, ih, lookup_append]
              have hsing : ([(vm_name, user)].lookup vm : Option String) = none := by
                simp [List.lookup, beq_false_of_ne (Ne.symm hvm)]
              simp [hsing]

lemma mem_set_add (us : List String) (v u : String) :
    u ∈ set_add us v ↔ u ∈ us ∨ u = v := by
  unfold set_add
  by_cases h : us.contains v = true
  · rw [if_pos h]
    have hv : v ∈ us := by
      obtain ⟨x, hx, hbeq⟩ := List.contains_iff_exists_mem_beq.mp h
      exact (eq_of_beq hbeq) ▸ hx
    constructor
    · exact Or.inl
    · rintro (hu | rfl)
      · exact hu
      · exact hv
  · rw [if_neg h]
    simp [List.mem_append]

lemma mem_user_foldl (parts : List String) :
    ∀ (us : List String) (u : String),
      (u ∈ parts.foldl (fun us part =>
        if pyStartsWith "USER:" part then set_add us (split_first ":" part)
        else us) us) ↔
      u ∈ us ∨ ∃ part ∈ parts, pyStartsWith "USER:" part = true ∧
        split_first ":" part = u := by
  induction parts with
  | nil => intro us u; simp
  | cons p ps ih =>
    intro us u
    rw [List.foldl_cons, ih]
    by_cases hp : pyStartsWith "USER:" p = true
    · simp only [hp, if_true, mem_set_add, List.mem_cons]
      constructor
      · rintro ((hu | rfl) | h)
        · exact Or.inl hu
        · exact Or.inr ⟨p, Or.inl rfl, hp, rfl⟩
        · obtain ⟨part, hmem, h1, h2⟩ := h
          exact Or.inr ⟨part, Or.inr hmem, h1, h2⟩
      · rintro (hu | ⟨part, hmem, h1, h2⟩)
        · exact Or.inl (Or.inl hu)
        · rcases hmem with rfl | hmem
          · exact Or.inl (Or.inr h2.symm)
          · exact Or.inr ⟨part, hmem, h1, h2⟩
    · simp only [hp, if_false, List.mem_cons]
      constructor
      · rintro (hu | ⟨part, hmem, h1, h2⟩)
        · exact Or.inl hu
        · exact Or.inr ⟨part, Or.inr hmem, h1, h2⟩
      · rintro (hu | ⟨part, hmem, h1, h2⟩)
        · exact Or.inl hu
        · rcases hmem with rfl | hmem
          · exact absurd h1 hp
          · exact Or.inr ⟨part, hmem, h1, h2⟩

lemma mem_busy_users (payload : String) (us : List String) (u : String) :
    u ∈ busy_users_of_payload us payload ↔
      u ∈ us ∨ ∃ part ∈ pySplit "|" payload,
        pyStartsWith "USER:" part = true ∧ split_first ":" part = u :=
  mem_user_foldl (pySplit "|" payload) us u

lemma scan_lines_saw_check (ls : List String) :
    ∀ (c b : Bool) (us : List String),
      (scan_lines ls c b us).1 = (c || ls.any fun l => py_in "CHECK_RES:" l) := by
  induction ls with
  | nil => intro c b us; simp [scan_lines]
  | cons line rest ih =>
    intro c b us
    by_cases hm : py_in "CHECK_RES:" line = true
    · by_cases hid : (payload_of line == "IDLE") = true
      · simp [scan_lines, hm, hid, ih]
      · by_cases hbz : pyStartsWith "BUSY" (payload_of line) = true
        · simp [scan_lines, hm, hid, hbz, ih]
        · simp [scan_lines, hm, hid, hbz, ih]
    · simp [scan_lines, hm, ih]

lemma busy_line_of_idle_payload (line : String)
    (hpl : payload_of line = "IDLE") : busy_line line = false := by
  have hb : pyStartsWith "BUSY" "IDLE" = false := by decide
  simp [busy_line, hpl, hb]

lemma scan_lines_saw_busy (ls : List String) :
    ∀ (c b : Bool) (us : List String),
      (scan_lines ls c b us).2.1 = (b || ls.any busy_line) := by
  induction ls with
  | nil => intro c b us; simp [scan_lines]
  | cons line rest ih =>
    intro c b us
    by_cases hm : py_in "CHECK_RES:" line = true
    · by_cases hid : (payload_of line == "IDLE") = true
      · have hbl : busy_line line = false :=
          busy_line_of_idle_payload line (by simpa using hid)
        simp [scan_lines, hm, hid, ih, hbl]
      · by_cases hbz : pyStartsWith "BUSY" (payload_of line) = true
        · have hbl : busy_line line = true := by simp [busy_line, hm, hbz]
          simp [scan_lines, hm, hid, hbz, ih, hbl]
        · have hbl : busy_line line = false := by simp [busy_line, hbz]
          simp [scan_lines, hm, hid, hbz, ih, hbl]
    · have hbl : busy_line line = false := by simp [busy_line, hm]
      simp [scan_lines, hm, ih, hbl]

lemma scan_lines_users (ls : List String) :
    ∀ (c b : Bool) (us : List String) (u : String),
      u ∈ (scan_lines ls c b us).2.2 ↔ u ∈ us ∨
        ∃ l ∈ ls, busy_line l = true ∧
          ∃ part ∈ pySplit "|" (payload_of l),
            pyStartsWith "USER:" part = true ∧ split_first ":" part = u := by
  induction ls with
  | nil => intro c b us u; simp [scan_lines]
  | cons line rest ih =>
    intro c b us u
    by_cases hm : py_in "CHECK_RES:" line = true
    · by_cases hid : (payload_of line == "IDLE") = true
      · have hbl : busy_line line = false :=
          busy_line_of_idle_payload line (by simpa using hid)
        have hstep : (scan_lines (line :: rest) c b us).2.2 =
            (scan_lines rest true b us).2.2 := by
          simp [scan_lines, hm, hid]
        rw [hstep, ih]
        constructor
        · rintro (hu | ⟨l, hl, h⟩)
          · exact Or.inl hu
          · exact Or.inr ⟨l, List.mem_cons_of_mem _ hl, h⟩
        · rintro (hu | ⟨l, hl, h⟩)
          · exact Or.inl hu
          · rcases List.mem_cons.mp hl with rfl | hl
            · rw [hbl] at h
              exact absurd h.1 (by decide)
            · exact Or.inr ⟨l, hl, h⟩
      · by_cases hbz : pyStartsWith "BUSY" (payload_of line) = true
        · have hbl : busy_line line = true := by simp [busy_line, hm, hbz]
          have hstep : (scan_lines (line :: rest) c b us).2.2 =
              (scan_lines rest true true
                (busy_users_of_payload us (payload_of line))).2.2 := by
            simp [scan_lines, hm, hid, hbz]
          rw [hstep, ih]
          rw [mem_busy_users]
          constructor
          · rintro ((hu | hpart) | ⟨l, hl, h⟩)
            · exact Or.inl hu
            · exact Or.inr ⟨line, List.mem_cons_self _ _, hbl, hpart⟩
            · exact Or.inr ⟨l, List.mem_cons_of_mem _ hl, h⟩
          · rintro (hu | ⟨l, hl, h⟩)
            · exact Or.inl (Or.inl hu)
            · rcases List.mem_cons.mp hl with rfl | hl
              · exact Or.inl (Or.inr h.2)
              · exact Or.inr ⟨l, hl, h⟩
        · have hbl : busy_line line = false := by simp [busy_line, hbz]
          have hstep : (scan_lines (line :: rest) c b us).2.2 =
              (scan_lines rest true b us).2.2 := by
            simp [scan_lines, hm, hid, hbz]
          rw [hstep, ih]
          constructor
          · rintro (hu | ⟨l, hl, h⟩)
            · exact Or.inl hu
            · exact Or.inr ⟨l, List.mem_cons_of_mem _ hl, h⟩
          · rintro (hu | ⟨l, hl, h⟩)
            · exact Or.inl hu
            · rcases List.mem_cons.mp hl with rfl | hl
              · rw [hbl] at h
                exact absurd h.1 (by decide)
              · exact Or.inr ⟨l, hl, h⟩
    · have hbl : busy_line line = false := by simp [busy_line, hm]
      have hstep : (scan_lines (line :: rest) c b us).2.2 =
          (scan_lines rest c b us).2.2 := by
        simp [scan_lines, hm]
      rw [hstep, ih]
      constructor
      · rintro (hu | ⟨l, hl, h⟩)
        · exact Or.inl hu
        · exact Or.inr ⟨l, List.mem_cons_of_mem _ hl, h⟩
      · rintro (hu | ⟨l, hl, h⟩)
        · exact Or.inl hu
        · rcases List.mem_cons.mp hl with rfl | hl
          · rw [hbl] at h
            exact absurd h.1 (by decide)
          · exact Or.inr ⟨l, hl, h⟩

end TpuMaster

namespace TpuMaster

/-! ## Claim theorems -/

/-- Claim C8: for every fixed priority list and name, `assign_prefix` returns
the first priority-list entry that is a substring of the name, else the OTHER
sentinel; it is deterministic, and its result depends only on (hence is
invariant under re-ordering of) the entries that are substrings of the
name. -/
theorem claim_C8 (name : String) (l l2 : List String) :
    assign_pfx name l = ((l.find? fun p => py_in p name).getD OTHER_PFX) ∧
    (l = l2 → assign_pfx name l = assign_pfx name l2) ∧
    ((l.filter fun p => py_in p name) = (l2.filter fun p => py_in p name) →
      assign_pfx name l = assign_pfx name l2) := by
  refine ⟨assign_pfx_eq_find? name l, fun h => by rw [h], fun h => ?_⟩
  rw [assign_pfx_eq_find? name l, assign_pfx_eq_find? name l2,
    find?_eq_head?_filter, find?_eq_head?_filter, h]

/-- Witness for C8 at a concrete input: re-ordering the non-matching entries
`dmy`, `gzy` around the matching entry `llq` does not change the tag. -/
theorem claim_C8_witness :
    (["dmy", "llq", "gzy"].filter fun p => py_in p "kmh-llq-v5p-8") =
      (["gzy", "dmy", "llq"].filter fun p => py_in p "kmh-llq-v5p-8") ∧
    assign_pfx "kmh-llq-v5p-8" ["dmy", "llq", "gzy"] =
      assign_pfx "kmh-llq-v5p-8" ["gzy", "dmy", "llq"] :=
  ⟨by decide, (claim_C8 "kmh-llq-v5p-8" ["dmy", "llq", "gzy"]
      ["gzy", "dmy", "llq"]).2.2 (by decide)⟩

/-- Claim C7: a failed external listing call makes the inventory collector
return empty active and preempted lists for that zone and never raises (the
embedding is a total function of the call's outcome), and in the
orchestrator's fan-in the failing zone's presence leaves every other zone's
contribution unchanged. -/
theorem claim_C7 (zone e : String)
    (pre post : List (String × Except String String)) :
    list_tpus_in_zone zone (.error e) = ([], []) ∧
    gather_zone_results
        ((pre.map fun zc => list_tpus_in_zone zc.1 zc.2) ++
          list_tpus_in_zone zone (.error e) ::
            (post.map fun zc => list_tpus_in_zone zc.1 zc.2)) =
      gather_zone_results
        ((pre.map fun zc => list_tpus_in_zone zc.1 zc.2) ++
          (post.map fun zc => list_tpus_in_zone zc.1 zc.2)) := by
  refine ⟨rfl, ?_⟩
  simp [gather_zone_results, list_tpus_in_zone]

/-- Claim C6: reservation reconciliation is the pointwise marking map; the
per-result step preserves prefix, name, zone and status always, leaves the
message unchanged unless the result is IDLE and reserved, and in that case
only appends the holder's identity. -/
theorem claim_C6 (res : List (String × String)) (rs : List CheckResult)
    (r : CheckResult) :
    mark_reservations res rs = rs.map (mark_one res) ∧
    ((mark_one res r).pfx = r.pfx ∧ (mark_one res r).name = r.name ∧
      (mark_one res r).zone = r.zone ∧ (mark_one res r).status = r.status) ∧
    (r.status ≠ "IDLE" → (mark_one res r).msg = r.msg) ∧
    (res.lookup r.name = none → (mark_one res r).msg = r.msg) ∧
    (∀ u, r.status = "IDLE" → res.lookup r.name = some u →
      (mark_one res r).msg = r.msg ++ " reserve (if idle): " ++ u) := by
  refine ⟨mark_reservations_eq_map res rs, ?_, ?_, ?_, ?_⟩
  · unfold mark_one
    cases h : res.lookup r.name <;> simp [h]
    split <;> simp
  · intro hs
    unfold mark_one
    cases h : res.lookup r.name <;> simp [h, hs]
  · intro h
    unfold mark_one
    simp [h]
  · intro u hs hl
    unfold mark_one
    simp [hl, hs]

/-- Witness for C6 at a concrete input: a reserved IDLE result gets the
holder appended; a BUSY result keeps its message. -/
theorem claim_C6_witness :
    ((⟨"llq", "n", "z", "IDLE", "m"⟩ : CheckResult).status = "IDLE" ∧
      [("n", "bob")].lookup "n" = some "bob") ∧
    (mark_one [("n", "bob")] ⟨"llq", "n", "z", "IDLE", "m"⟩).msg =
      "m" ++ " reserve (if idle): " ++ "bob" ∧
    ((⟨"llq", "x", "z", "BUSY", "m"⟩ : CheckResult).status ≠ "IDLE" →
      (mark_one [("n", "bob")] ⟨"llq", "x", "z", "BUSY", "m"⟩).msg = "m") :=
  ⟨⟨rfl, by decide⟩,
    (claim_C6 [("n", "bob")] [] ⟨"llq", "n", "z", "IDLE", "m"⟩).2.2.2.2 "bob"
      rfl (by decide),
    fun _ => (claim_C6 [("n", "bob")] [] ⟨"llq", "x", "z", "BUSY", "m"⟩).2.2.1
      (by decide)⟩

/-- Counterexample to C1 as stated: with `--cache true` and a cache entry of
age 1000 s (past the 300 s TTL), the wrapper serves the stale payload and
reports its age instead of executing an orchestrator pass, and the cache
entry keeps its old timestamp rather than being overwritten with `now`. -/
theorem claim_C1_counterexample :
    (run_with_cache_true (some (0, "X")) 1000).1 = .served "X" 1000 ∧
    (run_with_cache_true (some (0, "X")) 1000).2 = some (0, "X") ∧
    ((1000 : Int) - (0 : Int) > (CACHE_DURATION : Int)) ∧
    Option.map Prod.fst (run_with_cache_true (some (0, "X")) 1000).2 ≠
      some 1000 := by
  decide

/-- Claim C1 (amended): with `--cache true` the wrapper never runs an
orchestrator pass: if a cache entry exists — of any age — its payload is
returned unchanged and its age is reported, and the cache is left untouched;
if no entry exists the invocation fails without producing output.  Only
`--cache false` runs a pass and overwrites the cache entry with
`{now, output}`. -/
theorem claim_C1 (cache : Option (Nat × String)) (now t : Nat) (out : String) :
    (cache = none → run_with_cache_true cache now = (.exitNoCache, none)) ∧
    (cache = some (t, out) →
      run_with_cache_true cache now =
        (.served out ((now : Int) - (t : Int)), cache)) ∧
    (∀ so se rc, (run_with_cache_false now so se rc).2.1 =
        some (now, (run_with_cache_false now so se rc).1)) := by
  refine ⟨fun h => by simp [h, run_with_cache_true], fun h => ?_,
    fun so se rc => rfl⟩
  subst h
  rfl

/-- Witness for C1 at a concrete input: a 5-second-old entry is served with
age 5, and a refresh run stamps the cache with `now`. -/
theorem claim_C1_witness :
    ((some (5, "X") : Option (Nat × String)) = some (5, "X")) ∧
    run_with_cache_true (some (5, "X")) 10 = (.served "X" 5, some (5, "X")) ∧
    (run_with_cache_false 10 "o" "" 0).2.1 =
      some (10, (run_with_cache_false 10 "o" "" 0).1) :=
  ⟨rfl, (claim_C1 (some (5, "X")) 10 5 "X").2.1 rfl,
    (claim_C1 (some (5, "X")) 10 5 "X").2.2 "o" "" 0⟩

/-- Counterexample to C2 as stated: the filename `abc` does not parse, yet
after the scan it is still present in the directory — the scan skips it
without deleting it. -/
theorem claim_C2_counterexample :
    _parse_lock_filename "abc" = none ∧
    "abc" ∈ (collect_recent_reservations ["abc"] "2024-01-01_00-00-00").2 := by
  decide

/-- Claim C2 (amended): an entry whose filename cannot be parsed into
`{owner, instance_name, created_at}` is skipped but NOT deleted — it is still
present in the directory after the scan — and it contributes nothing to the
returned reservations; only an entry whose filename parses but whose
timestamp fails to parse is deleted and skipped. -/
theorem claim_C2 (files : List String) (now f : String) :
    (f ∈ files → _parse_lock_filename f = none →
      f ∈ (collect_recent_reservations files now).2) ∧
    ((collect_recent_reservations files now).1 =
      (collect_recent_reservations
        (files.filter fun g => (_parse_lock_filename g).isSome) now).1) ∧
    (∀ u vm ts, f ∈ files → _parse_lock_filename f = some (u, vm, ts) →
      lock_time_seconds_between ts now = none →
      f ∉ (collect_recent_reservations files now).2) := by
  refine ⟨fun hmem hf => scanAux_keeps_unparsable now f hf files [] hmem,
    scanAux_filter_parsable now files [],
    fun u vm ts _ hf hb => scanAux_removes now f u vm ts hf (Or.inl hb) files []⟩

/-- Witness for C2 at a concrete input: the unparsable entry `abc` survives
the scan, and an entry with a parseable name but invalid timestamp is
removed. -/
theorem claim_C2_witness :
    ("abc" ∈ ["abc", "u_vm_2024-13-01_00-00-00"] ∧
      _parse_lock_filename "abc" = none) ∧
    "abc" ∈ (collect_recent_reservations ["abc", "u_vm_2024-13-01_00-00-00"]
      "2024-01-01_00-00-00").2 ∧
    "u_vm_2024-13-01_00-00-00" ∉ (collect_recent_reservations
      ["abc", "u_vm_2024-13-01_00-00-00"] "2024-01-01_00-00-00").2 :=
  ⟨⟨by decide, by decide⟩,
    (claim_C2 ["abc", "u_vm_2024-13-01_00-00-00"] "2024-01-01_00-00-00"
      "abc").1 (by decide) (by decide),
    (claim_C2 ["abc", "u_vm_2024-13-01_00-00-00"] "2024-01-01_00-00-00"
      "u_vm_2024-13-01_00-00-00").2.2 "u" "vm" "2024-13-01_00-00-00"
      (by decide) (by decide) (by decide)⟩

/-- Claim C3: a lease entry whose age at scan time exceeds 1800 seconds is
removed from the directory by the scan (so it is absent on the next call),
and the reservations map sends each instance name to the owner of the first
fresh valid lease for that name encountered in the scan — never to an
expired one. -/
theorem claim_C3 (files : List String) (now : String) :
    (∀ f ∈ files, ∀ u vm ts s, _parse_lock_filename f = some (u, vm, ts) →
      lock_time_seconds_between ts now = some s → s > LOCK_EXPIRE_SECONDS →
      f ∉ (collect_recent_reservations files now).2) ∧
    (∀ vm, ((collect_recent_reservations files now).1.lookup vm) =
      ((files.find? (fresh_valid_for now vm)).map owner_of)) := by
  constructor
  · intro f _ u vm ts s hf hb hs
    exact scanAux_removes now f u vm ts hf (Or.inr ⟨s, hb, hs⟩) files []
  · intro vm
    have h := scanAux_lookup now vm files []
    simpa [collect_recent_reservations] using h

/-- Witness for C3 at a concrete input: a 3600-second-old lease for `vmx` is
purged, and the owner returned for `vmx` is `bob`, holder of the first fresh
lease (600 s old), not `alice` of the expired one. -/
theorem claim_C3_witness :
    ("alice_vmx_2024-01-01_00-00-00" ∈
        ["alice_vmx_2024-01-01_00-00-00", "bob_vmx_2024-01-01_00-50-00"] ∧
      _parse_lock_filename "alice_vmx_2024-01-01_00-00-00" =
        some ("alice", "vmx", "2024-01-01_00-00-00") ∧
      lock_time_seconds_between "2024-01-01_00-00-00" "2024-01-01_01-00-00" =
        some 3600 ∧ (3600 : Int) > LOCK_EXPIRE_SECONDS) ∧
    "alice_vmx_2024-01-01_00-00-00" ∉ (collect_recent_reservations
      ["alice_vmx_2024-01-01_00-00-00", "bob_vmx_2024-01-01_00-50-00"]
      "2024-01-01_01-00-00").2 ∧
    ((collect_recent_reservations
      ["alice_vmx_2024-01-01_00-00-00", "bob_vmx_2024-01-01_00-50-00"]
      "2024-01-01_01-00-00").1.lookup "vmx") =
      ((["alice_vmx_2024-01-01_00-00-00", "bob_vmx_2024-01-01_00-50-00"].find?
        (fresh_valid_for "2024-01-01_01-00-00" "vmx")).map owner_of) :=
  ⟨⟨by decide, by decide, by decide, by decide⟩,
    (claim_C3 ["alice_vmx_2024-01-01_00-00-00", "bob_vmx_2024-01-01_00-50-00"]
      "2024-01-01_01-00-00").1 "alice_vmx_2024-01-01_00-00-00" (by decide)
      "alice" "vmx" "2024-01-01_00-00-00" 3600 (by decide) (by decide)
      (by decide),
    (claim_C3 ["alice_vmx_2024-01-01_00-00-00", "bob_vmx_2024-01-01_00-50-00"]
      "2024-01-01_01-00-00").2 "vmx"⟩

lemma mem_zone_go_active (zone : String) :
    ∀ (ls : List String) (t : Task),
      (t ∈ (zone_go zone ls).1 ↔ ∃ line ∈ ls, ∃ name st,
        parse_tpu_line line = some (name, st) ∧ st ≠ "PREEMPTED" ∧
        should_skip_tpu name zone st = false ∧ t = ⟨name, zone, none, none⟩) := by
  intro ls
  induction ls with
  | nil => intro t; simp [zone_go]
  | cons line rest ih =>
    intro t
    cases hp : parse_tpu_line line with
    | none => simp [zone_go, hp, ih]
    | some ns =>
      obtain ⟨n, st⟩ := ns
      by_cases hpre : st = "PREEMPTED"
      · subst hpre
        simp [zone_go, hp, ih]
      · by_cases hskip : should_skip_tpu n zone st
        · simp [zone_go, hp, hpre, hskip, ih, and_assoc]
        · simp [zone_go, hp, hpre, hskip, ih, and_assoc]

lemma mem_zone_go_pre (zone : String) :
    ∀ (ls : List String) (t : Task),
      (t ∈ (zone_go zone ls).2 ↔ ∃ line ∈ ls, ∃ name,
        parse_tpu_line line = some (name, "PREEMPTED") ∧
        t = ⟨name, zone, some "PREEMPTED", none⟩) := by
  intro ls
  induction ls with
  | nil => intro t; simp [zone_go]
  | cons line rest ih =>
    intro t
    cases hp : parse_tpu_line line with
    | none => simp [zone_go, hp, ih]
    | some ns =>
      obtain ⟨n, st⟩ := ns
      by_cases hpre : st = "PREEMPTED"
      · subst hpre
        simp [zone_go, hp, ih, and_assoc]
      · by_cases hskip : should_skip_tpu n zone st
        · simp [zone_go, hp, hpre, hskip, ih, and_assoc]
        · simp [zone_go, hp, hpre, hskip, ih, and_assoc]

/-- Claim C5: a raw inventory record whose lifecycle state is TERMINATED,
CREATING, DELETING, REPAIRING or STOPPED, or whose name is the configured
exclusion `kmh-tpuvm-v4-8-4` or matches a dev-machine pattern, is skipped by
the classification policy, so it never contributes to the probe task set;
membership in the probe task set requires a non-PREEMPTED, non-skipped
record, and a PREEMPTED record contributes a delete task instead. -/
theorem claim_C5 (zone out name state : String) :
    ((state ∈ ["TERMINATED", "CREATING", "DELETING", "REPAIRING", "STOPPED"] ∨
      name = "kmh-tpuvm-v4-8-4" ∨ py_in "kmh-tpuvm-v3-8" name = true ∨
      py_in "kmh-tpuvm-v4-8-" name = true) →
      should_skip_tpu name zone state = true) ∧
    ((⟨name, zone, none, none⟩ : Task) ∈ (list_tpus_in_zone zone (.ok out)).1 ↔
      ∃ line ∈ pySplit "\n" out, ∃ st, parse_tpu_line line = some (name, st) ∧
        st ≠ "PREEMPTED" ∧ should_skip_tpu name zone st = false) ∧
    ((⟨name, zone, some "PREEMPTED", none⟩ : Task) ∈
        (list_tpus_in_zone zone (.ok out)).2 ↔
      ∃ line ∈ pySplit "\n" out, parse_tpu_line line = some (name, "PREEMPTED")) := by
  refine ⟨fun h => ?_, ?_, ?_⟩
  · rcases h with h | h | h | h
    · fin_cases h <;> rfl
    · subst h
      unfold should_skip_tpu
      split
      · rfl
      · rfl
    · unfold should_skip_tpu
      split
      · rfl
      · split
        · rfl
        · simp [h]
    · unfold should_skip_tpu
      split
      · rfl
      · split
        · rfl
        · simp [h]
  · rw [list_tpus_in_zone, mem_zone_go_active]
    constructor
    · rintro ⟨l, hl, name2, st, hparse, hne, hsk, ht⟩
      cases ht
      exact ⟨l, hl, st, hparse, hne, hsk⟩
    · rintro ⟨l, hl, st, hparse, hne, hsk⟩
      exact ⟨l, hl, name, st, hparse, hne, hsk, rfl⟩
  · rw [list_tpus_in_zone, mem_zone_go_pre]
    constructor
    · rintro ⟨l, hl, name2, hparse, ht⟩
      cases ht
      exact ⟨l, hl, hparse⟩
    · rintro ⟨l, hl, hparse⟩
      exact ⟨l, hl, name, hparse, rfl⟩

/-- Witness for C5 at a concrete input: a STOPPED record and the excluded
dev machine are absent from the probe set, the READY record is present, and
the PREEMPTED record becomes a delete task. -/
theorem claim_C5_witness :
    ("STOPPED" ∈ ["TERMINATED", "CREATING", "DELETING", "REPAIRING",
        "STOPPED"] ∨ ("c" : String) = "kmh-tpuvm-v4-8-4" ∨
      py_in "kmh-tpuvm-v3-8" "c" = true ∨ py_in "kmh-tpuvm-v4-8-" "c" = true) ∧
    should_skip_tpu "c" "z1" "STOPPED" = true ∧
    ((⟨"a-llq", "z1", none, none⟩ : Task) ∈
      (list_tpus_in_zone "z1" (.ok "a-llq\tREADY\nb\tPREEMPTED\nc\tSTOPPED")).1 ↔
      ∃ line ∈ pySplit "\n" "a-llq\tREADY\nb\tPREEMPTED\nc\tSTOPPED", ∃ st,
        parse_tpu_line line = some ("a-llq", st) ∧ st ≠ "PREEMPTED" ∧
        should_skip_tpu "a-llq" "z1" st = false) :=
  ⟨Or.inl (by decide),
    (claim_C5 "z1" "a-llq\tREADY\nb\tPREEMPTED\nc\tSTOPPED" "c" "STOPPED").1
      (Or.inl (by decide)),
    (claim_C5 "z1" "a-llq\tREADY\nb\tPREEMPTED\nc\tSTOPPED" "a-llq"
      "STOPPED").2.1⟩

/-- Claim C4: every probed instance yields exactly one verdict among IDLE,
BUSY, SSH_FAIL, TIMEOUT and ERROR; a non-zero remote exit yields SSH_FAIL,
exceeding the deadline yields TIMEOUT, output without the result marker
yields ERROR, at least one BUSY line yields BUSY with the union of all
reported users across nodes (mixed IDLE/BUSY is BUSY), and all-IDLE marker
lines yield IDLE. -/
theorem claim_C4 (t : Task) (res : ProbeOutcome) :
    ((check_single_tpu t res).status ∈
      ["IDLE", "BUSY", "SSH_FAIL", "TIMEOUT", "ERROR"]) ∧
    (res = .timedOut → (check_single_tpu t res).status = "TIMEOUT") ∧
    (∀ rc out err, res = .completed rc out err → rc ≠ 0 →
      (check_single_tpu t res).status = "SSH_FAIL") ∧
    (∀ out err, res = .completed 0 out err →
      (∀ l ∈ out, py_in "CHECK_RES:" l = false) →
      (check_single_tpu t res).status = "ERROR") ∧
    (∀ out err, res = .completed 0 out err → (∃ l ∈ out, busy_line l = true) →
      (check_single_tpu t res).status = "BUSY" ∧
      (∀ u, u ∈ (scan_lines out false false []).2.2 ↔ user_reported out u)) ∧
    (∀ out err, res = .completed 0 out err →
      (∃ l ∈ out, py_in "CHECK_RES:" l = true) →
      (∀ l ∈ out, py_in "CHECK_RES:" l = true → payload_of l = "IDLE") →
      (check_single_tpu t res).status = "IDLE") := by
  refine ⟨?_, ?_, ?_, ?_, ?_, ?_⟩
  · cases res with
    | timedOut => simp [check_single_tpu]
    | excepted e => simp [check_single_tpu]
    | completed rc out err =>
      by_cases hrc : rc ≠ 0
      · simp [check_single_tpu, hrc]
      · by_cases hc : (scan_lines out false false []).1 = false
        · simp [check_single_tpu, hrc, hc]
        · by_cases hb : (scan_lines out false false []).2.1 = false
          · simp [check_single_tpu, hrc, hc, hb]
          · simp [check_single_tpu, hrc, hc, hb]
  · rintro rfl
    rfl
  · rintro rc out err rfl hrc
    simp [check_single_tpu, hrc]
  · rintro out err rfl hnone
    have hc : (scan_lines out false false []).1 = false := by
      rw [scan_lines_saw_check]
      simp only [Bool.false_or]
      rw [List.any_eq_false]
      intro l hl
      simp [hnone l hl]
    simp [check_single_tpu, hc]
  · rintro out err rfl hbusy
    have hb : (scan_lines out false false []).2.1 = true := by
      rw [scan_lines_saw_busy]
      simp only [Bool.false_or]
      rw [List.any_eq_true]
      obtain ⟨l, hl, h⟩ := hbusy
      exact ⟨l, hl, h⟩
    have hc : (scan_lines out false false []).1 = true := by
      rw [scan_lines_saw_check]
      simp only [Bool.false_or]
      rw [List.any_eq_true]
      obtain ⟨l, hl, h⟩ := hbusy
      refine ⟨l, hl, ?_⟩
      have := h
      unfold busy_line at this
      exact (Bool.and_eq_true _ _ |>.mp this).1
    constructor
    · simp [check_single_tpu, hc, hb]
    · intro u
      rw [scan_lines_users]
      simp only [List.not_mem_nil, false_or]
      rfl
  · rintro out err rfl hsome hall
    have hc : (scan_lines out false false []).1 = true := by
      rw [scan_lines_saw_check]
      simp only [Bool.false_or]
      rw [List.any_eq_true]
      exact hsome
    have hb : (scan_lines out false false []).2.1 = false := by
      rw [scan_lines_saw_busy]
      simp only [Bool.false_or]
      rw [List.any_eq_false]
      intro l hl
      by_cases hm : py_in "CHECK_RES:" l = true
      · simp [busy_line_of_idle_payload l (hall l hl hm)]
      · simp [busy_line, hm]
    simp [check_single_tpu, hc, hb]

/-- Witness for C4 at a concrete input: one IDLE node and one BUSY node give
verdict BUSY, and the user set is exactly the reported users. -/
theorem claim_C4_witness :
    ((ProbeOutcome.completed 0 ["CHECK_RES:IDLE", "CHECK_RES:BUSY|USER:bob"] "" =
      ProbeOutcome.completed 0 ["CHECK_RES:IDLE", "CHECK_RES:BUSY|USER:bob"] "") ∧
      (∃ l ∈ ["CHECK_RES:IDLE", "CHECK_RES:BUSY|USER:bob"],
        busy_line l = true)) ∧
    (check_single_tpu ⟨"n", "z", none, some "llq"⟩
      (.completed 0 ["CHECK_RES:IDLE", "CHECK_RES:BUSY|USER:bob"] "")).status =
      "BUSY" :=
  ⟨⟨rfl, ⟨"CHECK_RES:BUSY|USER:bob", by decide, by decide⟩⟩,
    ((claim_C4 ⟨"n", "z", none, some "llq"⟩
      (.completed 0 ["CHECK_RES:IDLE", "CHECK_RES:BUSY|USER:bob"] "")).2.2.2.2.1
      ["CHECK_RES:IDLE", "CHECK_RES:BUSY|USER:bob"] "" rfl
      ⟨"CHECK_RES:BUSY|USER:bob", by decide, by decide⟩).1⟩

lemma audit_tasks_pre_state (zoneCalls : List (String × Except String String))
    (pfxes : List String) :
    ∀ t ∈ (audit_tasks zoneCalls pfxes).2, t.state = some "PREEMPTED" := by
  intro t ht
  simp only [audit_tasks, gather_zone_results, List.mem_flatten,
    List.mem_map] at ht
  obtain ⟨l, ⟨pair, ⟨zc, _, hf⟩, hsnd⟩, hmem⟩ := ht
  subst hsnd
  subst hf
  cases hc : zc.2 with
  | error e =>
    rw [hc] at hmem
    simp [list_tpus_in_zone] at hmem
  | ok out =>
    rw [hc] at hmem
    obtain ⟨line, _, name, _, ht⟩ :=
      (mem_zone_go_pre zc.1 (pySplit "\n" out) t).mp hmem
    rw [ht]

lemma audit_tasks_active_state (zoneCalls : List (String × Except String String))
    (pfxes : List String) :
    ∀ t ∈ (audit_tasks zoneCalls pfxes).1, t.state = none := by
  intro t ht
  simp only [audit_tasks, List.mem_map] at ht
  obtain ⟨t0, ht0, hupd⟩ := ht
  simp only [gather_zone_results, List.mem_flatten, List.mem_map] at ht0
  obtain ⟨l, ⟨pair, ⟨zc, _, hf⟩, hfst⟩, hmem⟩ := ht0
  subst hfst
  subst hf
  have hst : t0.state = none := by
    cases hc : zc.2 with
    | error e =>
      rw [hc] at hmem
      simp [list_tpus_in_zone] at hmem
    | ok out =>
      rw [hc] at hmem
      obtain ⟨line, _, name, st, _, _, _, ht0eq⟩ :=
        (mem_zone_go_active zc.1 (pySplit "\n" out) t0).mp hmem
      rw [ht0eq]
  rw [← hupd]
  exact hst

lemma zipWith_process_del (pre : List Task) :
    ∀ (ws : List ExtWorld), (∀ t ∈ pre, t.state.isSome = true) →
      pre.zipWith process_task ws =
        pre.zipWith (fun t w => TaskResult.del (delete_preempted_tpu t w.delOut))
          ws := by
  induction pre with
  | nil => intro ws _; simp
  | cons t pre ih =>
    intro ws h
    cases ws with
    | nil => simp
    | cons w ws =>
      simp only [List.zipWith_cons_cons]
      rw [ih ws fun t ht => h t (List.mem_cons_of_mem _ ht)]
      have hst : t.state.isSome = true := h t (List.mem_cons_self _ _)
      simp [process_task, hst]

lemma zipWith_process_chk (act : List Task) :
    ∀ (ws : List ExtWorld), (∀ t ∈ act, t.state = none) →
      act.zipWith process_task ws =
        act.zipWith (fun t w => TaskResult.chk (check_single_tpu t w.probeOut))
          ws := by
  induction act with
  | nil => intro ws _; simp
  | cons t act ih =>
    intro ws h
    cases ws with
    | nil => simp
    | cons w ws =>
      simp only [List.zipWith_cons_cons]
      rw [ih ws fun t ht => h t (List.mem_cons_of_mem _ ht)]
      have hst : t.state = none := h t (List.mem_cons_self _ _)
      simp [process_task, hst]

lemma dispatch_split (pre act : List Task) (ws : List ExtWorld)
    (hpre : ∀ t ∈ pre, t.state.isSome = true)
    (hact : ∀ t ∈ act, t.state = none)
    (hlen : ws.length = (pre ++ act).length) :
    ((pre ++ act).zipWith process_task ws).take pre.length =
      pre.zipWith (fun t w => TaskResult.del (delete_preempted_tpu t w.delOut))
        (ws.take pre.length) ∧
    ((pre ++ act).zipWith process_task ws).drop pre.length =
      act.zipWith (fun t w => TaskResult.chk (check_single_tpu t w.probeOut))
        (ws.drop pre.length) := by
  have hlen1 : pre.length = (ws.take pre.length).length := by
    rw [List.length_take, hlen, List.length_append]
    omega
  have hsplit : (pre ++ act).zipWith process_task ws =
      pre.zipWith process_task (ws.take pre.length) ++
        act.zipWith process_task (ws.drop pre.length) := by
    conv_lhs => rw [← List.take_append_drop pre.length ws]
    exact List.zipWith_append process_task pre act (ws.take pre.length)
      (ws.drop pre.length) hlen1
  have hfirstlen : (pre.zipWith process_task (ws.take pre.length)).length =
      pre.length := by
    rw [List.length_zipWith, ← hlen1, Nat.min_self]
  constructor
  · rw [hsplit, List.take_left' hfirstlen, zipWith_process_del pre _ hpre]
  · rw [hsplit, List.drop_left' hfirstlen, zipWith_process_chk act _ hact]

/-- Claim C10: in the combined batch of a pass, every delete task (built
from a PREEMPTED record) carries a `state` key and every active probe task
does not, so `process_task` routes every preempted record to the delete
handler and every active record to the probe handler, and splitting the
pool's result list at the number of preempted tasks exactly recovers the
delete results and the probe results. -/
theorem claim_C10 (zoneCalls : List (String × Except String String))
    (pfxes : List String) (ws : List ExtWorld) :
    (∀ t ∈ (audit_tasks zoneCalls pfxes).2, t.state = some "PREEMPTED") ∧
    (∀ t ∈ (audit_tasks zoneCalls pfxes).1, t.state = none) ∧
    (ws.length =
        ((audit_tasks zoneCalls pfxes).2 ++ (audit_tasks zoneCalls pfxes).1).length →
      ((((audit_tasks zoneCalls pfxes).2 ++
            (audit_tasks zoneCalls pfxes).1).zipWith process_task ws).take
          (audit_tasks zoneCalls pfxes).2.length =
        (audit_tasks zoneCalls pfxes).2.zipWith
          (fun t w => TaskResult.del (delete_preempted_tpu t w.delOut))
          (ws.take (audit_tasks zoneCalls pfxes).2.length) ∧
      (((audit_tasks zoneCalls pfxes).2 ++
            (audit_tasks zoneCalls pfxes).1).zipWith process_task ws).drop
          (audit_tasks zoneCalls pfxes).2.length =
        (audit_tasks zoneCalls pfxes).1.zipWith
          (fun t w => TaskResult.chk (check_single_tpu t w.probeOut))
          (ws.drop (audit_tasks zoneCalls pfxes).2.length))) := by
  refine ⟨audit_tasks_pre_state zoneCalls pfxes,
    audit_tasks_active_state zoneCalls pfxes, fun hlen => ?_⟩
  exact dispatch_split _ _ ws
    (fun t ht => by rw [audit_tasks_pre_state zoneCalls pfxes t ht]; rfl)
    (audit_tasks_active_state zoneCalls pfxes) hlen

/-- Witness for C10 at a concrete input: one PREEMPTED and one READY record;
the first result is the delete result, the second the probe result. -/
theorem claim_C10_witness :
    (([⟨DeleteOutcome.ok, ProbeOutcome.timedOut⟩,
        ⟨DeleteOutcome.ok, ProbeOutcome.timedOut⟩] : List ExtWorld).length =
      ((audit_tasks [("z1", .ok "a-llq\tREADY\nb\tPREEMPTED")] PFXES).2 ++
        (audit_tasks [("z1", .ok "a-llq\tREADY\nb\tPREEMPTED")] PFXES).1).length) ∧
    ((((audit_tasks [("z1", .ok "a-llq\tREADY\nb\tPREEMPTED")] PFXES).2 ++
          (audit_tasks [("z1", .ok "a-llq\tREADY\nb\tPREEMPTED")] PFXES).1).zipWith
        process_task
        [⟨DeleteOutcome.ok, ProbeOutcome.timedOut⟩,
          ⟨DeleteOutcome.ok, ProbeOutcome.timedOut⟩]).take
      (audit_tasks [("z1", .ok "a-llq\tREADY\nb\tPREEMPTED")] PFXES).2.length =
      (audit_tasks [("z1", .ok "a-llq\tREADY\nb\tPREEMPTED")] PFXES).2.zipWith
        (fun t w => TaskResult.del (delete_preempted_tpu t w.delOut))
        (([⟨DeleteOutcome.ok, ProbeOutcome.timedOut⟩,
          ⟨DeleteOutcome.ok, ProbeOutcome.timedOut⟩] : List ExtWorld).take
          (audit_tasks [("z1", .ok "a-llq\tREADY\nb\tPREEMPTED")] PFXES).2.length)) :=
  ⟨by decide,
    ((claim_C10 [("z1", .ok "a-llq\tREADY\nb\tPREEMPTED")] PFXES
      [⟨DeleteOutcome.ok, ProbeOutcome.timedOut⟩,
        ⟨DeleteOutcome.ok, ProbeOutcome.timedOut⟩]).2.2 (by decide)).1⟩

end TpuMaster
